import Mathlib

set_option maxRecDepth 100000

/-!
Verification of the request-signing and session-token core of
`src/servidor-tuya-express.js` (a Tuya smart-light relay server).

The JavaScript source is shallowly embedded as executable Lean definitions:
bytes are `Nat` values below 256, byte strings are `List Nat`, JS strings are
Lean `String`, JS plain objects holding string values are association lists in
property-insertion order, JSON documents are an explicit `Json` type, and the
mutable module state (the `token` variable) is threaded explicitly as a
`ServerState`.  Network responses are supplied as oracle arguments and every
operation additionally returns the list of outbound network calls it issued.
-/

/-! ## Bytes, hex, UTF-8 -/

/-- Truncate to a 32-bit word, as JS/crypto 32-bit arithmetic does. -/
def w32 (n : Nat) : Nat := n % 4294967296

/-- Rotate a 32-bit word right by `r` bits. -/
def rotr32 (r x : Nat) : Nat := w32 ((x >>> r) ||| (x <<< (32 - r)))

/-- Lower-case hex digit for a value below 16. -/
def hexCharLower (n : Nat) : Char := "0123456789abcdef".toList.getD n 'x'

/-- Upper-case hex digit for a value below 16. -/
def hexCharUpper (n : Nat) : Char := "0123456789ABCDEF".toList.getD n 'X'

/-- Lower-case hex encoding of a byte list (Node's `digest('hex')`). -/
def bytesToHexLower (bs : List Nat) : String :=
  String.mk (bs.flatMap (fun b => [hexCharLower (b / 16), hexCharLower (b % 16)]))

/-- Upper-case hex encoding of a byte list (`digest('hex').toUpperCase()`). -/
def bytesToHexUpper (bs : List Nat) : String :=
  String.mk (bs.flatMap (fun b => [hexCharUpper (b / 16), hexCharUpper (b % 16)]))

/-- UTF-8 encoding of one character (standard 1- to 4-byte forms). -/
def utf8EncodeChar (c : Char) : List Nat :=
  let n := c.toNat
  if n < 128 then [n]
  else if n < 2048 then [192 ||| (n >>> 6), 128 ||| (n &&& 63)]
  else if n < 65536 then
    [224 ||| (n >>> 12), 128 ||| ((n >>> 6) &&& 63), 128 ||| (n &&& 63)]
  else
    [240 ||| (n >>> 18), 128 ||| ((n >>> 12) &&& 63),
     128 ||| ((n >>> 6) &&& 63), 128 ||| (n &&& 63)]

/-- UTF-8 encoding of a string, the byte view Node's `update(str, 'utf8')` hashes. -/
def utf8Encode (s : String) : List Nat := s.toList.flatMap utf8EncodeChar

/-! ## SHA-256 (FIPS 180-4), as used by `crypto.createHash('sha256')` -/

/-- The 64 SHA-256 round constants. -/
def sha256K : List Nat :=
  [1116352408, 1899447441, 3049323471, 3921009573,
   961987163, 1508970993, 2453635748, 2870763221,
   3624381080, 310598401, 607225278, 1426881987,
   1925078388, 2162078206, 2614888103, 3248222580,
   3835390401, 4022224774, 264347078, 604807628,
   770255983, 1249150122, 1555081692, 1996064986,
   2554220882, 2821834349, 2952996808, 3210313671,
   3336571891, 3584528711, 113926993, 338241895,
   666307205, 773529912, 1294757372, 1396182291,
   1695183700, 1986661051, 2177026350, 2456956037,
   2730485921, 2820302411, 3259730800, 3345764771,
   3516065817, 3600352804, 4094571909, 275423344,
   430227734, 506948616, 659060556, 883997877,
   958139571, 1322822218, 1537002063, 1747873779,
   1955562222, 2024104815, 2227730452, 2361852424,
   2428436474, 2756734187, 3204031479, 3329325298]

/-- The initial SHA-256 hash state. -/
def sha256H0 : List Nat :=
  [1779033703, 3144134277, 1013904242, 2773480762,
   1359893119, 2600822924, 528734635, 1541459225]

/-- Big-endian 8-byte encoding of a length in bits. -/
def be64 (n : Nat) : List Nat := (List.range 8).map (fun i => (n >>> (8 * (7 - i))) &&& 255)

/-- SHA-256 padding: append 0x80, zeros to 56 mod 64, and the 64-bit bit length. -/
def sha256Pad (msg : List Nat) : List Nat :=
  let r := (msg.length + 1) % 64
  let padZeros := (56 + 64 - r) % 64
  msg ++ 0x80 :: List.replicate padZeros 0 ++ be64 (msg.length * 8)

/-- The 16 big-endian 32-bit words of one 64-byte block. -/
def wordsOfBlock (b : List Nat) : List Nat :=
  (List.range 16).map (fun i =>
    (b.getD (4 * i) 0) <<< 24 ||| (b.getD (4 * i + 1) 0) <<< 16 |||
    (b.getD (4 * i + 2) 0) <<< 8 ||| b.getD (4 * i + 3) 0)

/-- Append one word of the SHA-256 message schedule. -/
def sha256ExtendStep (ws : List Nat) : List Nat :=
  let i := ws.length
  let w15 := ws.getD (i - 15) 0
  let w2 := ws.getD (i - 2) 0
  let s0 := rotr32 7 w15 ^^^ rotr32 18 w15 ^^^ (w15 >>> 3)
  let s1 := rotr32 17 w2 ^^^ rotr32 19 w2 ^^^ (w2 >>> 10)
  ws ++ [w32 (ws.getD (i - 16) 0 + s0 + ws.getD (i - 7) 0 + s1)]

/-- Extend the message schedule by `n` words. -/
def sha256Extend : Nat → List Nat → List Nat
  | 0, ws => ws
  | n + 1, ws => sha256Extend n (sha256ExtendStep ws)

/-- One SHA-256 compression round on the 8-word working state. -/
def sha256Round (st : List Nat) (k w : Nat) : List Nat :=
  match st with
  | [a, b, c, d, e, f, g, h] =>
    let bigS1 := rotr32 6 e ^^^ rotr32 11 e ^^^ rotr32 25 e
    let ch := (e &&& f) ^^^ ((e ^^^ 4294967295) &&& g)
    let temp1 := w32 (h + bigS1 + ch + k + w)
    let bigS0 := rotr32 2 a ^^^ rotr32 13 a ^^^ rotr32 22 a
    let maj := (a &&& b) ^^^ (a &&& c) ^^^ (b &&& c)
    let temp2 := w32 (bigS0 + maj)
    [w32 (temp1 + temp2), a, b, c, w32 (d + temp1), e, f, g]
  | other => other

/-- Compress one block (given as a 64-word schedule) into the hash state. -/
def sha256Compress (hs : List Nat) (ws : List Nat) : List Nat :=
  let fin := (List.zip sha256K ws).foldl (fun st kw => sha256Round st kw.1 kw.2) hs
  (List.zip hs fin).map (fun p => w32 (p.1 + p.2))

/-- SHA-256 of a byte list, producing the 32 digest bytes. -/
def sha256Bytes (msg : List Nat) : List Nat :=
  let padded := sha256Pad msg
  let blocks := (List.range (padded.length / 64)).map (fun i => (padded.drop (64 * i)).take 64)
  let hFinal := blocks.foldl (fun hs b => sha256Compress hs (sha256Extend 48 (wordsOfBlock b))) sha256H0
  hFinal.flatMap (fun x => [(x >>> 24) &&& 255, (x >>> 16) &&& 255, (x >>> 8) &&& 255, x &&& 255])

/-- HMAC-SHA256 with a 64-byte block size (`crypto.createHmac('sha256', key)`). -/
def hmacSha256Bytes (key msg : List Nat) : List Nat :=
  let k0 := if 64 < key.length then sha256Bytes key else key
  let kp := k0 ++ List.replicate (64 - k0.length) 0
  sha256Bytes ((kp.map (fun b => b ^^^ 92)) ++ sha256Bytes ((kp.map (fun b => b ^^^ 54)) ++ msg))


/-! ## JS strings, plain objects, and the `qs` query-string layer

A JS plain object whose values are strings is modelled as an association list
`JsObj` in property-insertion order; `objSet` is property assignment (an
existing key keeps its position and gets the new value, a new key is appended),
which is exactly the ECMAScript own-property order the source relies on for
`Object.keys`/`Object.assign`/`qs.stringify`.  Percent-encoding is not
modelled: the source immediately applies `decodeURIComponent` to
`qs.stringify`'s output (line 100), so for the parameter texts the program and
the claims use, `qs.parse`/`qs.stringify` act on the raw text, which is what
`qsParse`/`canonicalQueryString` implement.  The `qs` array behaviour for
duplicate keys inside one query string is outside every claim and is collapsed
to JS-object last-write-wins here. -/

/-- A JS plain object with string values, in property-insertion order. -/
abbrev JsObj := List (String × String)

/-- JS property write `o[k] = v`: update in place if present, else append. -/
def objSet : JsObj → String → String → JsObj
  | [], k, v => [(k, v)]
  | p :: rest, k, v => if p.1 = k then (k, v) :: rest else p :: objSet rest k v

/-- JS property read `o[k]`, `none` for a missing property. -/
def objGet : JsObj → String → Option String
  | [], _ => none
  | p :: rest, k => if p.1 = k then some p.2 else objGet rest k

/-- The keys of an object in property order (JS `Object.keys`). -/
def objKeys (o : JsObj) : List String := o.map Prod.fst

/-- JS `Object.assign(target, source)`: write every source property onto the
target, in source-property order.  The JS call mutates and returns `target`;
here the returned object is the target's contents after the call. -/
def jsAssign (target source : JsObj) : JsObj :=
  source.foldl (fun o p => objSet o p.1 p.2) target

/-- Split a character list at every occurrence of `sep` (JS `String.split`). -/
def splitChars (sep : Char) : List Char → List Char → List (List Char)
  | [], acc => [acc.reverse]
  | c :: rest, acc =>
    if c = sep then acc.reverse :: splitChars sep rest [] else splitChars sep rest (c :: acc)

/-- JS `str.split(sep)` for a one-character separator. -/
def jsSplit (s : String) (sep : Char) : List String :=
  (splitChars sep s.toList []).map String.mk

/-- Join strings with a separator (JS `Array.join`). -/
def joinSep (sep : String) : List String → String
  | [] => ""
  | [x] => x
  | x :: xs => x ++ sep ++ joinSep sep xs

/-- One `k=v` segment of a query string, split at the first `=` as `qs` does;
a segment with no `=` maps the whole segment to the empty string. -/
def qsPair (part : String) : String × String :=
  match jsSplit part '=' with
  | [] => (part, "")
  | [k] => (k, "")
  | k :: rest => (k, joinSep "=" rest)

/-- The `qs.parse` of a query string: split on `&`, drop empty segments, and build
the result object pair by pair.  `qs.parse(undefined)` is the empty object,
which callers reach through `pathQueryPart` returning `""`. -/
def qsParse (qstr : String) : JsObj :=
  (((jsSplit qstr '&').filter (fun part => part != "")).map qsPair).foldl
    (fun o p => objSet o p.1 p.2) []

/-- The part of `path` before the first `?` (`path.split('?')[0]`). -/
def uriPart (path : String) : String := (jsSplit path '?').headD ""

/-- The part of `path` between the first and second `?`
(`path.split('?')[1]`, with the absent case folded into `""`). -/
def pathQueryPart (path : String) : String :=
  match jsSplit path '?' with
  | _ :: q :: _ => q
  | _ => ""

/-- Lexicographic comparison of character lists by code point: the order JS
`Array.prototype.sort()` applies to the ASCII keys this server uses. -/
def charListLt : List Char → List Char → Bool
  | [], [] => false
  | [], _ :: _ => true
  | _ :: _, [] => false
  | c :: cs, d :: ds =>
    if c.toNat < d.toNat then true
    else if d.toNat < c.toNat then false
    else charListLt cs ds

/-- JS string comparison `a < b` as the default sort comparator uses it. -/
def strLt (a b : String) : Bool := charListLt a.toList b.toList

/-- Insert a pair into a key-sorted list, before the first key not below it. -/
def insertByKey (x : String × String) : JsObj → JsObj
  | [] => [x]
  | y :: ys => if strLt y.1 x.1 then y :: insertByKey x ys else x :: y :: ys

/-- Rebuild the object with its keys in ascending order: the effect of lines
96-98 of the source (`Object.keys(queryMerged).sort()` written into a fresh
object one key at a time). -/
def sortByKey (l : JsObj) : JsObj := l.foldl (fun acc x => insertByKey x acc) []

/-- The composite `decodeURIComponent(qs.stringify(o))`: serialize in property order as
`k=v` joined by `&`, with the percent layer cancelled (source line 100). -/
def canonicalQueryString (l : JsObj) : String :=
  joinSep "&" (l.map (fun p => p.1 ++ "=" ++ p.2))

/-- Lines 92-93 of the source: the contents of the caller's `query` object
after `Object.assign(query, qs.parse(pathQuery))` ran — parsed path
parameters are written over the explicit ones. -/
def mergedQuery (path : String) (query : JsObj) : JsObj :=
  jsAssign query (qsParse (pathQueryPart path))

/-- Lines 92-101 of the source: the canonical signed path — uri plus the
sorted, decoded serialization of the merged query, `?` omitted when empty. -/
def canonicalUrl (path : String) (query : JsObj) : String :=
  let querystring := canonicalQueryString (sortByKey (mergedQuery path query))
  if querystring = "" then uriPart path else uriPart path ++ "?" ++ querystring

/-! ## JSON documents and `JSON.stringify` -/

mutual
/-- A JSON document as the source builds them for request bodies. -/
inductive Json where
  | null : Json
  | bool : Bool → Json
  | num : Int → Json
  | str : String → Json
  | arr : JsonList → Json
  | obj : JsonObjList → Json
/-- The elements of a JSON array, in order. -/
inductive JsonList where
  | nil : JsonList
  | cons : Json → JsonList → JsonList
/-- The fields of a JSON object, in property-insertion order. -/
inductive JsonObjList where
  | nil : JsonObjList
  | cons : String → Json → JsonObjList → JsonObjList
end

/-- The escaped form of one character inside a JSON string literal. -/
def jsonEscapeChar (c : Char) : String :=
  if c = '"' then "\\\""
  else if c = '\\' then "\\\\"
  else if c = '\x08' then "\\b"
  else if c = '\x09' then "\\t"
  else if c = '\x0a' then "\\n"
  else if c = '\x0c' then "\\f"
  else if c = '\x0d' then "\\r"
  else if c.toNat < 32 then
    "\\u00" ++ String.mk [hexCharLower (c.toNat / 16), hexCharLower (c.toNat % 16)]
  else String.mk [c]

/-- A JSON string literal with its quotes (`JSON.stringify` of a string). -/
def jsonQuote (s : String) : String :=
  "\"" ++ String.join (s.toList.map jsonEscapeChar) ++ "\""

mutual
/-- JS `JSON.stringify` (no spacing), preserving object property order. -/
def jsonStringify : Json → String
  | .null => "null"
  | .bool true => "true"
  | .bool false => "false"
  | .num n => toString n
  | .str s => jsonQuote s
  | .arr l => "[" ++ jsonStringifyList l ++ "]"
  | .obj l => "\x7b" ++ jsonStringifyObj l ++ "\x7d"
/-- Comma-separated serialization of array elements. -/
def jsonStringifyList : JsonList → String
  | .nil => ""
  | .cons x .nil => jsonStringify x
  | .cons x tl => jsonStringify x ++ "," ++ jsonStringifyList tl
/-- Comma-separated serialization of object fields. -/
def jsonStringifyObj : JsonObjList → String
  | .nil => ""
  | .cons k v .nil => jsonQuote k ++ ":" ++ jsonStringify v
  | .cons k v tl => jsonQuote k ++ ":" ++ jsonStringify v ++ "," ++ jsonStringifyObj tl
end


/-! ## The Tuya relay server model

`Config` is the read-only credential struct (lines 18-23); the mutable module
variable `let token = ''` (line 45) is the `ServerState`.  Timestamps
(`Date.now().toString()`) and HTTP responses are nondeterministic inputs and
enter as parameters: a `none` response oracle is a transport failure (axios
throw), a `some` response is the provider's `{success, result, msg}` envelope.
Every operation returns its result, the state after the call, and the list of
outbound network calls it issued, in order. -/

/-- The credential/config struct loaded from the environment (lines 18-23). -/
structure Config where
  host : String
  accessKey : String
  secretKey : String
  deviceId : String
deriving DecidableEq

/-- The server's mutable state: the module-level `token` variable (line 45). -/
structure ServerState where
  token : String
deriving DecidableEq

/-- The provider's token-exchange envelope, with `result.access_token` flattened
into one field (`login.result.access_token`, line 75). -/
structure TokenResponse where
  success : Bool
  accessToken : String
  msg : String
deriving DecidableEq

/-- The provider's device-call envelope `{success, msg}` as the source reads it
(lines 145-147 and 174-176; `result` is passed through unread). -/
structure ApiEnvelope where
  success : Bool
  msg : String
deriving DecidableEq

/-- The header object built by `getToken` (lines 62-67). -/
structure TokenHeaders where
  t : String
  sign_method : String
  client_id : String
  sign : String
deriving DecidableEq

/-- The header object returned by `getRequestSign` (lines 106-113). -/
structure SignHeaders where
  t : String
  path : String
  client_id : String
  sign : String
  sign_method : String
  access_token : String
deriving DecidableEq

/-- Source `encryptStr` (lines 85-87): upper-case hex HMAC-SHA256 of `str` under
`secret`, both read as UTF-8. -/
def encryptStr (str secret : String) : String :=
  bytesToHexUpper (hmacSha256Bytes (utf8Encode secret) (utf8Encode str))

/-- Line 102: the content hash of a request body,
`sha256(JSON.stringify(body))` in lower-case hex. -/
def contentHashOf (body : Json) : String :=
  bytesToHexLower (sha256Bytes (utf8Encode (jsonStringify body)))

/-- Line 103: `[method, contentHash, '', url].join('\n')`. -/
def requestStringToSign (method : String) (body : Json) (url : String) : String :=
  joinSep "\n" [method, contentHashOf body, "", url]

/-- Source `getRequestSign` (lines 90-114), with the ambient `config` and `token` and
the `Date.now()` timestamp passed explicitly.  The caller's mutated `query`
object is recoverable as `mergedQuery path query`. -/
def getRequestSign (cfg : Config) (token : String) (t : String) (path : String)
    (method : String) (query : JsObj) (body : Json) : SignHeaders :=
  let url := canonicalUrl path query
  let stringToSign := requestStringToSign method body url
  let signStr := cfg.accessKey ++ token ++ t ++ stringToSign
  ⟨t, url, cfg.accessKey, encryptStr signStr cfg.secretKey, "HMAC-SHA256", token⟩

/-- The signing step of `getToken` (lines 55-67).  The whole `ServerState` is
in scope exactly as the module-level `token` variable is in the source; the
computed headers read only `config` and the timestamp. -/
def getTokenHeaders (cfg : Config) (st : ServerState) (timestamp : String) : TokenHeaders :=
  let method := "GET"
  let signUrl := "/v1.0/token?grant_type=1"
  let contentHash := bytesToHexLower (sha256Bytes (utf8Encode ""))
  let stringToSign := joinSep "\n" [method, contentHash, "", signUrl]
  let signStr := cfg.accessKey ++ timestamp ++ stringToSign
  ⟨timestamp, "HMAC-SHA256", cfg.accessKey, encryptStr signStr cfg.secretKey⟩

/-- One outbound network call, with everything the transport was given. -/
inductive NetCall where
  | tokenExchange : TokenHeaders → NetCall
  | deviceCall : (method : String) → (url : String) → (body : Option Json) →
      (headers : SignHeaders) → NetCall

/-- Whether a network call is the token-exchange `GET /v1.0/token`. -/
def isTokenExchange : NetCall → Bool
  | .tokenExchange _ => true
  | .deviceCall _ _ _ _ => false

/-- The number of token-exchange calls in a trace. -/
def countTokenExchanges (calls : List NetCall) : Nat :=
  (calls.filter isTokenExchange).length

/-- Source `getToken` (lines 53-82): sign, issue the exchange call, and on a success
envelope store `login.result.access_token`; on a transport error (`none`) or a
`success: false` envelope, throw without touching the token. -/
def getToken (cfg : Config) (st : ServerState) (timestamp : String)
    (resp : Option TokenResponse) : Except String String × ServerState × List NetCall :=
  let headers := getTokenHeaders cfg st timestamp
  let calls := [NetCall.tokenExchange headers]
  match resp with
  | none => (.error "transport error", st, calls)
  | some login =>
    if login.success then (.ok login.accessToken, ⟨login.accessToken⟩, calls)
    else (.error ("fetch failed: " ++ login.msg), st, calls)

/-- Lines 119-122 (and 159-161): `if (!token) await getToken()` — the ensure
step device calls run first.  A held (non-empty) token is kept as is. -/
def ensureToken (cfg : Config) (st : ServerState) (timestamp : String)
    (resp : Option TokenResponse) : Except String ServerState × ServerState × List NetCall :=
  if st.token = "" then
    match getToken cfg st timestamp resp with
    | (.ok _, st', calls) => (.ok st', st', calls)
    | (.error e, st', calls) => (.error e, st', calls)
  else (.ok st, st, [])

/-- The body `{commands: [{code, value}]}` built by `controlDevice`
(lines 124-131). -/
def commandBody (command : String) (value : Json) : Json :=
  Json.obj (.cons "commands"
    (Json.arr (.cons (Json.obj (.cons "code" (Json.str command)
      (.cons "value" value .nil))) .nil)) .nil)

/-- Wrap a device-call outcome the way every route handler does: a success
envelope keeps going, an error becomes the handler's 500 branch. -/
inductive EndpointReply where
  | ok : (message : String) → EndpointReply
  | badRequest : (message : String) → EndpointReply
  | serverError : (message : String) → EndpointReply

/-- Source `controlDevice` (lines 117-154): ensure a token, build the command body,
sign with `getRequestSign`, issue the POST, and fail on a transport error or a
non-success envelope.  `tokenTs`/`signTs` are the two `Date.now()` reads,
`tokenResp`/`deviceResp` the two responses. -/
def controlDevice (cfg : Config) (st : ServerState) (tokenTs signTs : String)
    (tokenResp : Option TokenResponse) (deviceResp : Option ApiEnvelope)
    (deviceId command : String) (value : Json) :
    Except String ApiEnvelope × ServerState × List NetCall :=
  match ensureToken cfg st tokenTs tokenResp with
  | (.error e, st', calls) => (.error e, st', calls)
  | (.ok stok, st', calls) =>
    let body := commandBody command value
    let reqHeaders := getRequestSign cfg stok.token signTs
      ("/v1.0/devices/" ++ deviceId ++ "/commands") "POST" [] body
    let calls' := calls ++ [NetCall.deviceCall "POST" reqHeaders.path (some body) reqHeaders]
    match deviceResp with
    | none => (.error "transport error", st', calls')
    | some d =>
      if d.success then (.ok d, st', calls')
      else (.error ("request api failed: " ++ d.msg), st', calls')

/-- The sign-header computation of `getDeviceInfo` (lines 163-165): a GET on
the device path signed over the default empty `{}` body. -/
def deviceInfoSignHeaders (cfg : Config) (token signTs deviceId : String) : SignHeaders :=
  getRequestSign cfg token signTs ("/v1.0/devices/" ++ deviceId) "GET" [] (Json.obj .nil)

/-- Source `getDeviceInfo` (lines 157-183): ensure a token, sign, GET the device. -/
def getDeviceInfo (cfg : Config) (st : ServerState) (tokenTs signTs : String)
    (tokenResp : Option TokenResponse) (deviceResp : Option ApiEnvelope)
    (deviceId : String) : Except String ApiEnvelope × ServerState × List NetCall :=
  match ensureToken cfg st tokenTs tokenResp with
  | (.error e, st', calls) => (.error e, st', calls)
  | (.ok stok, st', calls) =>
    let reqHeaders := deviceInfoSignHeaders cfg stok.token signTs deviceId
    let calls' := calls ++ [NetCall.deviceCall "GET" reqHeaders.path none reqHeaders]
    match deviceResp with
    | none => (.error "transport error", st', calls')
    | some d =>
      if d.success then (.ok d, st', calls')
      else (.error ("request api failed: " ++ d.msg), st', calls')

/-! ## Route handlers for brightness, HSV colour, and colour presets

Numeric JSON inputs are modelled as rationals, `Math.round` as
`floor (x + 1/2)`, and a missing request field as `none`. -/

/-- JS `Math.round`: the integer nearest to `x`, half rounding up. -/
def jsRound (x : ℚ) : Int := ⌊x + 1 / 2⌋

/-- The success/error wrapping every handler applies around `controlDevice`
(`res.json(...)` on success, the catch branch's 500 on error). -/
def replyWrap (okMsg : String) (r : Except String ApiEnvelope × ServerState × List NetCall) :
    EndpointReply × ServerState × List NetCall :=
  match r with
  | (.ok _, st', calls) => (.ok okMsg, st', calls)
  | (.error e, st', calls) => (.serverError e, st', calls)

/-- Handler `POST /device/brightness` (lines 369-403): require the field, reject out
of range 10-1000 with a 400 before anything else runs, else send
`bright_value_v2` with the rounded value. -/
def brightnessEndpoint (cfg : Config) (st : ServerState) (tokenTs signTs : String)
    (tokenResp : Option TokenResponse) (deviceResp : Option ApiEnvelope)
    (brightness : Option ℚ) : EndpointReply × ServerState × List NetCall :=
  match brightness with
  | none => (.badRequest "Parámetro brightness (10-1000) es requerido", st, [])
  | some b =>
    if b < 10 ∨ b > 1000 then
      (.badRequest "Brillo fuera de rango: debe estar entre 10 y 1000", st, [])
    else
      replyWrap "Brillo cambiado exitosamente"
        (controlDevice cfg st tokenTs signTs tokenResp deviceResp cfg.deviceId
          "bright_value_v2" (Json.num (jsRound b)))

/-- Handler `POST /device/color/hsv` (lines 328-366): require all three fields, reject
out-of-range h/s/v with a 400 before anything else runs, else send
`colour_data_v2` with the rounded triple. -/
def hsvEndpoint (cfg : Config) (st : ServerState) (tokenTs signTs : String)
    (tokenResp : Option TokenResponse) (deviceResp : Option ApiEnvelope)
    (h s v : Option ℚ) : EndpointReply × ServerState × List NetCall :=
  match h, s, v with
  | some hv, some sv, some vv =>
    if hv < 0 ∨ hv > 360 ∨ sv < 0 ∨ sv > 1000 ∨ vv < 0 ∨ vv > 1000 then
      (.badRequest "Valores fuera de rango: h(0-360), s(0-1000), v(0-1000)", st, [])
    else
      replyWrap "Color HSV cambiado exitosamente"
        (controlDevice cfg st tokenTs signTs tokenResp deviceResp cfg.deviceId
          "colour_data_v2"
          (Json.obj (.cons "h" (Json.num (jsRound hv))
            (.cons "s" (Json.num (jsRound sv))
              (.cons "v" (Json.num (jsRound vv)) .nil)))))
  | _, _, _ =>
    (.badRequest "Faltan parámetros: h (0-360), s (0-1000), v (0-1000) son requeridos", st, [])

/-- An `{h, s, v}` JSON value as the preset table stores them. -/
def mkHsv (h s v : Int) : Json :=
  Json.obj (.cons "h" (Json.num h) (.cons "s" (Json.num s) (.cons "v" (Json.num v) .nil)))

/-- The preset table of `POST /device/color/preset` (lines 484-494). -/
def presetColors : List (String × Json) :=
  [("red", mkHsv 0 1000 1000), ("green", mkHsv 120 1000 1000), ("blue", mkHsv 240 1000 1000),
   ("yellow", mkHsv 60 1000 1000), ("purple", mkHsv 300 1000 1000), ("cyan", mkHsv 180 1000 1000),
   ("orange", mkHsv 30 1000 1000), ("pink", mkHsv 330 700 1000), ("white", mkHsv 0 0 1000)]

/-- JS `String.toLowerCase` (the source's colours are ASCII). -/
def jsToLower (s : String) : String := String.mk (s.toList.map Char.toLower)

/-- Handler `POST /device/color/preset` (lines 480-519): look the colour up in the
preset table (a missing or unknown colour is a 400) and send the stored
`{h, s, v}` value as `colour_data_v2`. -/
def presetEndpoint (cfg : Config) (st : ServerState) (tokenTs signTs : String)
    (tokenResp : Option TokenResponse) (deviceResp : Option ApiEnvelope)
    (color : Option String) : EndpointReply × ServerState × List NetCall :=
  match color with
  | none => (.badRequest "Color no válido", st, [])
  | some c =>
    match (presetColors.find? (fun p => p.1 == jsToLower c)).map Prod.snd with
    | none => (.badRequest "Color no válido", st, [])
    | some colorData =>
      replyWrap ("Color " ++ c ++ " aplicado exitosamente")
        (controlDevice cfg st tokenTs signTs tokenResp deviceResp cfg.deviceId
          "colour_data_v2" colorData)

/-- A concrete sample configuration used by closed witness statements. -/
def cfgEx : Config := ⟨"https://openapi.tuyaus.com", "ak", "sk", "dev1"⟩

/-- Whether a token-exchange attempt failed: a transport error (`none`) or a
response envelope with `success: false`. -/
def tokenExchangeFailed : Option TokenResponse → Bool
  | none => true
  | some login => !login.success

/-! ## Known-answer checks for the embedded primitives -/

/-- Known-answer check: SHA-256 of the empty input (FIPS example value). -/
theorem sha256_empty_known_answer :
    bytesToHexLower (sha256Bytes (utf8Encode "")) =
      "e3b0c44298fc1c149afbf4c8996fb92427ae41e4649b934ca495991b7852b855" := by decide

/-- Known-answer check: SHA-256 of "abc" (FIPS 180-4 appendix example). -/
theorem sha256_abc_known_answer :
    bytesToHexLower (sha256Bytes (utf8Encode "abc")) =
      "ba7816bf8f01cfea414140de5dae2223b00361a396177a9cb410ff61f20015ad" := by decide

/-- Known-answer check: HMAC-SHA256 with key "key" over a standard message. -/
theorem hmac_known_answer :
    bytesToHexLower (hmacSha256Bytes (utf8Encode "key")
        (utf8Encode "The quick brown fox jumps over the lazy dog")) =
      "f7bc83f430538424b13298e6aa6fb143ef4d59a14946175997479dbc2d1a3cd8" := by decide

/-- Serialization check: the empty object body serializes to braces only. -/
theorem jsonStringify_empty_obj : jsonStringify (Json.obj .nil) = "\x7b\x7d" := by decide

/-! ## Association-list lemmas for the JS object model -/

/-- Writing a property makes it readable with the written value. -/
theorem objGet_objSet_self (o : JsObj) (k v : String) : objGet (objSet o k v) k = some v := by
  induction o with
  | nil => simp [objSet, objGet]
  | cons p rest ih =>
    by_cases hp : p.1 = k
    · simp [objSet, objGet, hp]
    · simp [objSet, objGet, hp, ih]

/-- Writing one property leaves reads of other properties unchanged. -/
theorem objGet_objSet_ne (o : JsObj) (k v k' : String) (h : k' ≠ k) :
    objGet (objSet o k v) k' = objGet o k' := by
  induction o with
  | nil => simp [objSet, objGet, Ne.symm h]
  | cons p rest ih =>
    by_cases hp : p.1 = k
    · subst hp
      simp [objSet, objGet, Ne.symm h]
    · by_cases hp' : p.1 = k'
      · simp [objSet, objGet, hp, hp', h, Ne.symm h]
      · simp [objSet, objGet, hp, hp', ih]

/-- A key of a written object is the written key or a key of the original. -/
theorem mem_objKeys_objSet (o : JsObj) (k v x : String)
    (h : x ∈ objKeys (objSet o k v)) : x = k ∨ x ∈ objKeys o := by
  induction o with
  | nil =>
    left
    simpa [objSet, objKeys] using h
  | cons p rest ih =>
    by_cases hp : p.1 = k
    · have he : objSet (p :: rest) k v = (k, v) :: rest := by
        show (if p.1 = k then (k, v) :: rest else p :: objSet rest k v) = (k, v) :: rest
        rw [if_pos hp]
      rw [he] at h
      rcases List.mem_cons.mp h with h' | h'
      · exact Or.inl h'
      · exact Or.inr (List.mem_cons.mpr (Or.inr h'))
    · have he : objSet (p :: rest) k v = p :: objSet rest k v := by
        show (if p.1 = k then (k, v) :: rest else p :: objSet rest k v) = p :: objSet rest k v
        rw [if_neg hp]
      rw [he] at h
      rcases List.mem_cons.mp h with h' | h'
      · exact Or.inr (List.mem_cons.mpr (Or.inl h'))
      · rcases ih h' with h'' | h''
        · exact Or.inl h''
        · exact Or.inr (List.mem_cons.mpr (Or.inr h''))

/-- Property assignment preserves key uniqueness. -/
theorem nodup_objKeys_objSet (o : JsObj) (k v : String) (h : (objKeys o).Nodup) :
    (objKeys (objSet o k v)).Nodup := by
  induction o with
  | nil => simp [objSet, objKeys]
  | cons p rest ih =>
    have h' := List.nodup_cons.mp h
    by_cases hp : p.1 = k
    · have he : objSet (p :: rest) k v = (k, v) :: rest := by
        show (if p.1 = k then (k, v) :: rest else p :: objSet rest k v) = (k, v) :: rest
        rw [if_pos hp]
      rw [he]
      exact List.nodup_cons.mpr ⟨hp ▸ h'.1, h'.2⟩
    · have he : objSet (p :: rest) k v = p :: objSet rest k v := by
        show (if p.1 = k then (k, v) :: rest else p :: objSet rest k v) = p :: objSet rest k v
        rw [if_neg hp]
      rw [he]
      refine List.nodup_cons.mpr ⟨fun hmem => ?_, ih h'.2⟩
      rcases mem_objKeys_objSet rest k v p.1 hmem with h'' | h''
      · exact hp h''
      · exact h'.1 h''

/-- Objects built by repeated property writes have pairwise-distinct keys. -/
theorem nodup_objKeys_foldl_objSet (pairs : List (String × String)) :
    ∀ o : JsObj, (objKeys o).Nodup →
      (objKeys (pairs.foldl (fun acc p => objSet acc p.1 p.2) o)).Nodup := by
  induction pairs with
  | nil => intro o h; simpa using h
  | cons p rest ih => intro o h; exact ih _ (nodup_objKeys_objSet o p.1 p.2 h)

/-- The result of `qs.parse` has pairwise-distinct keys. -/
theorem nodup_objKeys_qsParse (qstr : String) : (objKeys (qsParse qstr)).Nodup := by
  unfold qsParse
  exact nodup_objKeys_foldl_objSet _ [] (by simp [objKeys])

/-- Assigning properties whose keys avoid `k` does not change reads of `k`. -/
theorem objGet_jsAssign_not_mem (src : JsObj) (k : String) :
    ∀ tgt : JsObj, k ∉ objKeys src → objGet (jsAssign tgt src) k = objGet tgt k := by
  induction src with
  | nil => intro tgt _; rfl
  | cons p rest ih =>
    intro tgt h
    have h1 : k ≠ p.1 := fun he => h (List.mem_cons.mpr (Or.inl he))
    have h2 : k ∉ objKeys rest := fun hm => h (List.mem_cons.mpr (Or.inr hm))
    show objGet (jsAssign (objSet tgt p.1 p.2) rest) k = objGet tgt k
    rw [ih _ h2, objGet_objSet_ne _ _ _ _ h1]

/-- After `Object.assign(target, source)`, every source binding is readable
with the source's value, provided the source's keys are pairwise distinct. -/
theorem objGet_jsAssign_mem (src : JsObj) (k v : String) :
    ∀ tgt : JsObj, (objKeys src).Nodup → (k, v) ∈ src →
      objGet (jsAssign tgt src) k = some v := by
  induction src with
  | nil => intro tgt _ hmem; cases hmem
  | cons p rest ih =>
    intro tgt hnodup hmem
    have hnd := List.nodup_cons.mp hnodup
    rcases List.mem_cons.mp hmem with he | hmem'
    · subst he
      show objGet (jsAssign (objSet tgt k v) rest) k = some v
      rw [objGet_jsAssign_not_mem rest k _ hnd.1, objGet_objSet_self]
    · exact ih _ hnd.2 hmem'

/-- Projection helper: the handler success/500 wrapping around `controlDevice`
never changes the list of outbound calls. -/
theorem replyWrap_snd (okMsg : String)
    (r : Except String ApiEnvelope × ServerState × List NetCall) :
    (replyWrap okMsg r).2.2 = r.2.2 := by
  rcases r with ⟨res, st', calls⟩
  cases res <;> rfl

/-! ## The claims -/

/-- C1, counterexample: with explicit query `a=1` and path query `a=2`,
`Object.assign(query, qs.parse(pathQuery))` keeps the parsed value `2`, so the
canonical query is `a=2`, not the `a=1` the claim requires. -/
theorem claim_C1_counterexample :
    objGet (mergedQuery "/x?a=2" [("a", "1")]) "a" = some "2" ∧
    canonicalUrl "/x?a=2" [("a", "1")] = "/x?a=2" ∧
    canonicalUrl "/x?a=2" [("a", "1")] ≠ "/x?a=1" := by
  refine ⟨by decide, by decide, by decide⟩

/-- C1, amended: on a key collision between an explicit query parameter and a
parameter parsed from the path's query string, the parsed parameter's value is
the one used in the merged mapping the canonical query serializes —
`Object.assign(query, qs.parse(pathQuery))` applies the parsed parameters
last, so they win. -/
theorem claim_C1_amended (path : String) (query : JsObj) (k v : String)
    (h : (k, v) ∈ qsParse (pathQueryPart path)) :
    objGet (mergedQuery path query) k = some v :=
  objGet_jsAssign_mem _ k v query (nodup_objKeys_qsParse _) h

/-- C1, witness: the amended claim at path `/x?b=3&a=2` and explicit `a=1`. -/
theorem claim_C1_witness : objGet (mergedQuery "/x?b=3&a=2" [("a", "1")]) "a" = some "2" :=
  claim_C1_amended "/x?b=3&a=2" [("a", "1")] "a" "2" (by decide)

/-- C2, counterexample: the empty body `{}` that `getDeviceInfo` passes to
`getRequestSign` serializes to the two-character brace string, so its content
hash is the well-known SHA-256 of that string, which differs from the SHA-256
of the empty string that the claim asserts both call sites use. -/
theorem claim_C2_counterexample :
    contentHashOf (Json.obj .nil) =
      "44136fa355b3678a1146ad16f7e8649e94fb4fc21fe77e8310c060f61caaff8a" ∧
    bytesToHexLower (sha256Bytes (utf8Encode "")) =
      "e3b0c44298fc1c149afbf4c8996fb92427ae41e4649b934ca495991b7852b855" ∧
    contentHashOf (Json.obj .nil) ≠ bytesToHexLower (sha256Bytes (utf8Encode "")) :=
  ⟨by decide, by decide, by decide⟩

/-- C2, amended: every request signed by `getRequestSign` hashes
`JSON.stringify(body)` in lower-case hex; `getToken` hashes the empty string;
but the default empty body is the object `{}`, whose serialization is the
two-character brace string, so the empty-body request of `getDeviceInfo` uses
SHA256 of that string, which differs from SHA256 of the empty string. -/
theorem claim_C2_amended :
    (∀ (method : String) (body : Json) (url : String),
        requestStringToSign method body url =
          method ++ "\n" ++ bytesToHexLower (sha256Bytes (utf8Encode (jsonStringify body))) ++
            "\n" ++ "" ++ "\n" ++ url) ∧
    (∀ (cfg : Config) (token signTs deviceId : String),
        deviceInfoSignHeaders cfg token signTs deviceId =
          getRequestSign cfg token signTs ("/v1.0/devices/" ++ deviceId) "GET" []
            (Json.obj .nil)) ∧
    contentHashOf (Json.obj .nil) = bytesToHexLower (sha256Bytes (utf8Encode "\x7b\x7d")) ∧
    contentHashOf (Json.obj .nil) ≠ bytesToHexLower (sha256Bytes (utf8Encode "")) := by
  refine ⟨fun method body url => ?_, fun _ _ _ _ => rfl, by decide, by decide⟩
  simp only [requestStringToSign, contentHashOf, joinSep, String.append_assoc]

/-- C3: for every authenticated call, the produced signature is the upper-case
hex HMAC-SHA256, keyed by the secret key, of
`accessKey ++ token ++ timestamp ++ stringToSign`, where `stringToSign` is the
method, the content hash, an empty reserved line, and the canonical path
joined by newlines. -/
theorem claim_C3 (cfg : Config) (token t path method : String) (query : JsObj) (body : Json) :
    (getRequestSign cfg token t path method query body).sign =
      bytesToHexUpper (hmacSha256Bytes (utf8Encode cfg.secretKey)
        (utf8Encode (cfg.accessKey ++ token ++ t ++
          (method ++ "\n" ++
           bytesToHexLower (sha256Bytes (utf8Encode (jsonStringify body))) ++
           "\n" ++ "" ++ "\n" ++ canonicalUrl path query)))) := by
  simp only [getRequestSign, encryptStr, requestStringToSign, contentHashOf, joinSep,
    String.append_assoc]

/-- C4: the token-acquisition signing step reads only the configuration and
the timestamp, so its result while holding any stale token equals its result
while holding no token. -/
theorem claim_C4 (cfg : Config) (timestamp : String) (st : ServerState) :
    getTokenHeaders cfg st timestamp = getTokenHeaders cfg ⟨""⟩ timestamp := rfl

/-- C5: for a fixed configuration, token, timestamp, method and body, the two
query-parameter orders of the claim's path canonicalize identically, so the
whole signed header object — signature included — is the same. -/
theorem claim_C5 (cfg : Config) (token t method : String) (body : Json) :
    getRequestSign cfg token t "/x?b=2&a=1" method [] body =
      getRequestSign cfg token t "/x?a=1&b=2" method [] body := by
  simp only [getRequestSign]
  rw [show canonicalUrl "/x?b=2&a=1" ([] : JsObj) = canonicalUrl "/x?a=1&b=2" [] from by decide]

/-- C6: the preset colour `red` resolves to `{h:0, s:1000, v:1000}` and the
preset endpoint issues exactly the same outbound calls — same command code,
body, and signed headers — as the direct HSV endpoint called with
`h=0, s=1000, v=1000`, for identical state, timestamps and responses. -/
theorem claim_C6 (cfg : Config) (st : ServerState) (tokenTs signTs : String)
    (tokenResp : Option TokenResponse) (deviceResp : Option ApiEnvelope) :
    (presetColors.find? (fun p => p.1 == jsToLower "red")).map Prod.snd =
      some (mkHsv 0 1000 1000) ∧
    (presetEndpoint cfg st tokenTs signTs tokenResp deviceResp (some "red")).2.2 =
      (hsvEndpoint cfg st tokenTs signTs tokenResp deviceResp
        (some 0) (some 1000) (some 1000)).2.2 := by
  constructor
  · rfl
  · have hjson : Json.obj (.cons "h" (Json.num (jsRound 0))
        (.cons "s" (Json.num (jsRound 1000)) (.cons "v" (Json.num (jsRound 1000)) .nil))) =
        mkHsv 0 1000 1000 := by
      rw [show (jsRound 0 : Int) = 0 from by norm_num [jsRound],
          show (jsRound 1000 : Int) = 1000 from by norm_num [jsRound]]
      rfl
    have hpreset : (presetEndpoint cfg st tokenTs signTs tokenResp deviceResp (some "red")).2.2 =
        (controlDevice cfg st tokenTs signTs tokenResp deviceResp cfg.deviceId
          "colour_data_v2" (mkHsv 0 1000 1000)).2.2 := by
      show (replyWrap ("Color " ++ "red" ++ " aplicado exitosamente")
        (controlDevice cfg st tokenTs signTs tokenResp deviceResp cfg.deviceId
          "colour_data_v2" (mkHsv 0 1000 1000))).2.2 = _
      exact replyWrap_snd _ _
    have hhsv : (hsvEndpoint cfg st tokenTs signTs tokenResp deviceResp
        (some 0) (some 1000) (some 1000)).2.2 =
        (controlDevice cfg st tokenTs signTs tokenResp deviceResp cfg.deviceId
          "colour_data_v2"
          (Json.obj (.cons "h" (Json.num (jsRound 0))
            (.cons "s" (Json.num (jsRound 1000))
              (.cons "v" (Json.num (jsRound 1000)) .nil))))).2.2 := by
      simp only [hsvEndpoint]
      rw [if_neg (show ¬((0 : ℚ) < 0 ∨ (0 : ℚ) > 360 ∨ (1000 : ℚ) < 0 ∨ (1000 : ℚ) > 1000 ∨
        (1000 : ℚ) < 0 ∨ (1000 : ℚ) > 1000) from by norm_num)]
      exact replyWrap_snd _ _
    rw [hpreset, hhsv, hjson]


/-- C7: with a held (non-empty) token, the ensure step is a no-op that issues
no network call at all, and a device call through `controlDevice` then issues
no token-exchange call; while `getToken` — the manual and periodic refresh —
always issues exactly one token-exchange call, whatever the held state and
the response. -/
theorem claim_C7 :
    (∀ (cfg : Config) (st : ServerState) (ts : String) (resp : Option TokenResponse),
        st.token ≠ "" → ensureToken cfg st ts resp = (.ok st, st, [])) ∧
    (∀ (cfg : Config) (st : ServerState) (tokenTs signTs : String)
        (tokenResp : Option TokenResponse) (deviceResp : Option ApiEnvelope)
        (deviceId command : String) (value : Json),
        st.token ≠ "" →
        countTokenExchanges
          (controlDevice cfg st tokenTs signTs tokenResp deviceResp
            deviceId command value).2.2 = 0) ∧
    (∀ (cfg : Config) (st : ServerState) (ts : String) (resp : Option TokenResponse),
        countTokenExchanges (getToken cfg st ts resp).2.2 = 1) := by
  have hensure : ∀ (cfg : Config) (st : ServerState) (ts : String)
      (resp : Option TokenResponse), st.token ≠ "" →
      ensureToken cfg st ts resp = (.ok st, st, []) := by
    intro cfg st ts resp h
    simp [ensureToken, h]
  refine ⟨hensure, ?_, ?_⟩
  · intro cfg st tokenTs signTs tokenResp deviceResp deviceId command value h
    unfold controlDevice
    rw [hensure cfg st tokenTs tokenResp h]
    cases deviceResp with
    | none => rfl
    | some d =>
      rcases d with ⟨succ, msg⟩
      cases succ <;> rfl
  · intro cfg st ts resp
    cases resp with
    | none => rfl
    | some login =>
      rcases login with ⟨succ, tok, msg⟩
      cases succ <;> rfl

/-- C7, witness: the three parts at a held token "tok" and concrete inputs. -/
theorem claim_C7_witness :
    ensureToken cfgEx ⟨"tok"⟩ "1" none = (.ok ⟨"tok"⟩, ⟨"tok"⟩, []) ∧
    countTokenExchanges (controlDevice cfgEx ⟨"tok"⟩ "1" "2" none none "dev1" "switch_led"
      (Json.bool true)).2.2 = 0 ∧
    countTokenExchanges (getToken cfgEx ⟨"tok"⟩ "1" none).2.2 = 1 :=
  ⟨claim_C7.1 cfgEx ⟨"tok"⟩ "1" none (by decide),
   claim_C7.2.1 cfgEx ⟨"tok"⟩ "1" "2" none none "dev1" "switch_led" (Json.bool true) (by decide),
   claim_C7.2.2 cfgEx ⟨"tok"⟩ "1" none⟩

/-- C8: an out-of-range brightness (outside 10-1000) or HSV triple (h outside
0-360, s or v outside 0-1000) is rejected with the 400 response and an empty
outbound-call trace: no signing and no network activity of any kind. -/
theorem claim_C8 :
    (∀ (cfg : Config) (st : ServerState) (tokenTs signTs : String)
        (tokenResp : Option TokenResponse) (deviceResp : Option ApiEnvelope) (b : ℚ),
        b < 10 ∨ b > 1000 →
        brightnessEndpoint cfg st tokenTs signTs tokenResp deviceResp (some b) =
          (.badRequest "Brillo fuera de rango: debe estar entre 10 y 1000", st, [])) ∧
    (∀ (cfg : Config) (st : ServerState) (tokenTs signTs : String)
        (tokenResp : Option TokenResponse) (deviceResp : Option ApiEnvelope) (h s v : ℚ),
        h < 0 ∨ h > 360 ∨ s < 0 ∨ s > 1000 ∨ v < 0 ∨ v > 1000 →
        hsvEndpoint cfg st tokenTs signTs tokenResp deviceResp
          (some h) (some s) (some v) =
          (.badRequest "Valores fuera de rango: h(0-360), s(0-1000), v(0-1000)", st, [])) := by
  constructor
  · intro cfg st tokenTs signTs tokenResp deviceResp b hb
    simp only [brightnessEndpoint]
    rw [if_pos hb]
  · intro cfg st tokenTs signTs tokenResp deviceResp h s v hr
    simp only [hsvEndpoint]
    rw [if_pos hr]

/-- C8, witness: brightness 5000 and HSV h=400 are rejected with no calls. -/
theorem claim_C8_witness :
    brightnessEndpoint cfgEx ⟨"tok"⟩ "1" "2" none none (some 5000) =
      (.badRequest "Brillo fuera de rango: debe estar entre 10 y 1000", ⟨"tok"⟩, []) ∧
    hsvEndpoint cfgEx ⟨"tok"⟩ "1" "2" none none (some 400) (some 500) (some 500) =
      (.badRequest "Valores fuera de rango: h(0-360), s(0-1000), v(0-1000)", ⟨"tok"⟩, []) :=
  ⟨claim_C8.1 cfgEx ⟨"tok"⟩ "1" "2" none none 5000 (by norm_num),
   claim_C8.2 cfgEx ⟨"tok"⟩ "1" "2" none none 400 500 500 (by norm_num)⟩

/-- C9: when the token exchange fails — transport error or a `success: false`
envelope — `getToken` leaves the server state, and with it the stored token,
exactly as it was. -/
theorem claim_C9 (cfg : Config) (st : ServerState) (ts : String)
    (resp : Option TokenResponse) (h : tokenExchangeFailed resp = true) :
    (getToken cfg st ts resp).2.1 = st := by
  cases resp with
  | none => rfl
  | some login =>
    have hs : login.success = false := by
      simpa [tokenExchangeFailed] using h
    simp [getToken, hs]

/-- C9, witness: a rejected exchange while holding "old" keeps the token. -/
theorem claim_C9_witness :
    (getToken cfgEx ⟨"old"⟩ "1" (some ⟨false, "newtok", "denied"⟩)).2.1 = ⟨"old"⟩ :=
  claim_C9 cfgEx ⟨"old"⟩ "1" (some ⟨false, "newtok", "denied"⟩) (by decide)

/-- C10, counterexample: for path `/x?a=1` — whose query string is non-empty —
and a caller's query object already holding `a=1`, the caller's object after
the call is unchanged, against the claim's "observably changed after the call
rather than left unmodified" for every call whose path contains a query
string. -/
theorem claim_C10_counterexample :
    pathQueryPart "/x?a=1" = "a=1" ∧
    mergedQuery "/x?a=1" [("a", "1")] = [("a", "1")] := by
  refine ⟨by decide, by decide⟩

/-- C10, amended: `getRequestSign` does write the parameters parsed from the
path into the caller's query object — its contents after the call are exactly
`Object.assign(query, qs.parse(pathQuery))` — and the object is observably
changed whenever some parsed parameter is missing from it or bound to a
different value; it is left as it was only when every parsed parameter already
appears with the same value. -/
theorem claim_C10_amended (path : String) (query : JsObj) :
    mergedQuery path query = jsAssign query (qsParse (pathQueryPart path)) ∧
    ((∃ p ∈ qsParse (pathQueryPart path), objGet query p.1 ≠ some p.2) →
      mergedQuery path query ≠ query) := by
  refine ⟨rfl, ?_⟩
  rintro ⟨p, hp, hne⟩ heq
  have hget : objGet (mergedQuery path query) p.1 = some p.2 :=
    objGet_jsAssign_mem _ p.1 p.2 query (nodup_objKeys_qsParse _) hp
  rw [heq] at hget
  exact hne hget

/-- C10, witness: the amended claim's change clause at path `/x?a=2` against
a caller object holding `a=1`. -/
theorem claim_C10_witness : mergedQuery "/x?a=2" [("a", "1")] ≠ [("a", "1")] :=
  (claim_C10_amended "/x?a=2" [("a", "1")]).2 (by decide)
